import Mathlib

/-!
Verification of the chrome-mcp-client-rpa remote-control core.

The development shallowly embeds the two CDP (Chrome DevTools Protocol)
client scripts of the repository:

* `src/js/1-newchat-opener.js` — the RPC multiplexer `cdp`, the geometry
  selector `pickNode`, the four click strategies `clickByAXQuery`,
  `clickByAX`, `clickByDOM`, `clickByFrames`, the verifier `verifyNewChat`,
  and the retry loop of `main`;
* `src/2-chat-injector.js` — that file's simpler `cdp` multiplexer and the
  in-page `injection(text)` script.

JavaScript promises and `await` are modelled with `Except Unit` (a rejected
promise is `.error ()`); the single-threaded event loop of the multiplexer
is modelled as a small-step transition system over the observable events
(call issued, inbound frame, timer fired, socket closed).  JS numbers are
embedded as `ℚ` (page geometry) and `ℤ`/`Nat` (rounded coordinates, ids).
-/

namespace ChromeRpa

/-! ### RPC multiplexer models (`cdp` in both scripts)

Both `cdp` functions keep a shared counter `id` and a `Map` from correlation
id to `{resolve, reject, tid}`.  Crucially, in both files the `setTimeout`
callback closes over the *shared, mutable* `id` variable, so when a call's
timer fires it inspects and deletes the table entry of the *latest issued*
call (`map.has(id)` / `map.delete(id)` with the current value of `id`),
while rejecting its own promise.

The model records, per event, which call's promise gets settled and how.
`table` holds the keys currently in the `Map` (a key equals the id of the
call whose resolve/reject callbacks are stored under it, because
`map.set(id, ...)` runs synchronously after `id += 1`).  `timers` holds the
ids of calls whose timeout timer is still scheduled.  `log` is the sequence
of settlement events `(call id, kind)` — each entry is one invocation of
that call's `resolve` or `reject` callback. -/

/-- How a pending call's promise callback was invoked. -/
inductive Settle
  | success
  | protoErr
  | timeout
  | transport
deriving DecidableEq, Repr

/-- Observable events of one `cdp` connection:
a call being issued, an inbound frame `{id, result|error}`, the timeout
timer of call `c` firing, and the socket closing or erroring. -/
inductive MuxEvent
  | issue
  | response (rid : Nat) (isError : Bool)
  | timerFire (c : Nat)
  | wsClose
deriving DecidableEq, Repr

/-- State of one `cdp` multiplexer instance. -/
structure MuxState where
  lastId : Nat := 0
  table : List Nat := []
  timers : List Nat := []
  log : List (Nat × Settle) := []
deriving DecidableEq, Repr

/-- One step of the `cdp` multiplexer of `1-newchat-opener.js` (lines 99-152).

* `issue`: `id += 1; ws.send(...); setTimeout(...); map.set(id, {resolve, reject, tid, method})`.
* `response rid isError`: the `ws.on('message')` handler — if `map.has(d.id)`
  it deletes the entry, clears that entry's timer and rejects on `d.error`,
  resolves otherwise; unknown ids are ignored.
* `timerFire c`: the timeout callback of call `c`.  It reads the *current*
  value of the shared `id` variable (`s.lastId`); if that key is present it
  deletes it and rejects call `c` with the timeout error.
* `wsClose`: the `ws.on('close')` / `ws.on('error')` handlers — for every
  entry clear its timer, reject it, and delete it. -/
def openerStep (s : MuxState) (e : MuxEvent) : MuxState :=
  match e with
  | .issue =>
      { s with lastId := s.lastId + 1
               table := s.table ++ [s.lastId + 1]
               timers := s.timers ++ [s.lastId + 1] }
  | .response rid isError =>
      if rid ∈ s.table then
        { s with table := s.table.erase rid
                 timers := s.timers.erase rid
                 log := s.log ++ [(rid, if isError then Settle.protoErr else Settle.success)] }
      else s
  | .timerFire c =>
      if c ∈ s.timers then
        if s.lastId ∈ s.table then
          { s with timers := s.timers.erase c
                   table := s.table.erase s.lastId
                   log := s.log ++ [(c, Settle.timeout)] }
        else { s with timers := s.timers.erase c }
      else s
  | .wsClose =>
      { s with table := []
               timers := s.timers.filter (fun t => decide (t ∉ s.table))
               log := s.log ++ s.table.map (fun k => (k, Settle.transport)) }

/-- One step of the `cdp` multiplexer of `2-chat-injector.js` (lines 131-157).

Differences to the opener's: the message handler *resolves unconditionally*
(it never looks at `d.error`), no timer handle is stored so nothing is ever
cleared (`timers` only shrink when a timer fires), and there is no
`close`/`error` handler at all. -/
def injectorStep (s : MuxState) (e : MuxEvent) : MuxState :=
  match e with
  | .issue =>
      { s with lastId := s.lastId + 1
               table := s.table ++ [s.lastId + 1]
               timers := s.timers ++ [s.lastId + 1] }
  | .response rid _ =>
      if rid ∈ s.table then
        { s with table := s.table.erase rid
                 log := s.log ++ [(rid, Settle.success)] }
      else s
  | .timerFire c =>
      if c ∈ s.timers then
        if s.lastId ∈ s.table then
          { s with timers := s.timers.erase c
                   table := s.table.erase s.lastId
                   log := s.log ++ [(c, Settle.timeout)] }
        else { s with timers := s.timers.erase c }
      else s
  | .wsClose => s

/-- Run the opener's multiplexer over a list of events from the fresh state. -/
def openerRun (es : List MuxEvent) : MuxState :=
  es.foldl openerStep {}

/-- Run the injector's multiplexer over a list of events from the fresh state. -/
def injectorRun (es : List MuxEvent) : MuxState :=
  es.foldl injectorStep {}

/-- Number of times call `c`'s promise callbacks were invoked in state `s`. -/
def settleCount (c : Nat) (s : MuxState) : Nat :=
  (s.log.filter (fun p => p.1 == c)).length

/-! ### Geometry selector (`pickNode`, lines 154-176 of `1-newchat-opener.js`)

`pickNode` iterates the candidate backend node ids, asks `DOM.getBoxModel`
for each, takes the `content`/`border`/`margin` quadrilateral
`q = [x1,y1,x2,y2,x3,y3,x4,y4]`, computes `width = max(0, maxX - minX)`,
`height = max(0, maxY - minY)`, skips candidates with `width < 1 ||
height < 1`, and keeps the candidate with the strictly greatest area
(`area > best.area`, so ties keep the earlier candidate).  The returned
center is `Math.round` of the average of the four corner coordinates. -/

/-- A bounding quadrilateral as returned by `DOM.getBoxModel`:
`[x1,y1,x2,y2,x3,y3,x4,y4]`. -/
structure Quad where
  x1 : ℚ
  y1 : ℚ
  x2 : ℚ
  y2 : ℚ
  x3 : ℚ
  y3 : ℚ
  x4 : ℚ
  y4 : ℚ
deriving DecidableEq, Repr

/-- JavaScript `Math.max` on two (non-NaN) numbers. -/
def jsMax (a b : ℚ) : ℚ := if a ≤ b then b else a

/-- JavaScript `Math.min` on two (non-NaN) numbers. -/
def jsMin (a b : ℚ) : ℚ := if a ≤ b then a else b

def qMinX (q : Quad) : ℚ := jsMin (jsMin q.x1 q.x2) (jsMin q.x3 q.x4)

def qMaxX (q : Quad) : ℚ := jsMax (jsMax q.x1 q.x2) (jsMax q.x3 q.x4)

def qMinY (q : Quad) : ℚ := jsMin (jsMin q.y1 q.y2) (jsMin q.y3 q.y4)

def qMaxY (q : Quad) : ℚ := jsMax (jsMax q.y1 q.y2) (jsMax q.y3 q.y4)

/-- The derived `const width = Math.max(0, maxX - minX)`. -/
def qWidth (q : Quad) : ℚ := jsMax 0 (qMaxX q - qMinX q)

/-- The derived `const height = Math.max(0, maxY - minY)`. -/
def qHeight (q : Quad) : ℚ := jsMax 0 (qMaxY q - qMinY q)

/-- The skip condition `width < 1 || height < 1` of the `pickNode` loop. -/
def qInvisible (q : Quad) : Prop := qWidth q < 1 ∨ qHeight q < 1

instance (q : Quad) : Decidable (qInvisible q) := by
  unfold qInvisible; infer_instance

def qArea (q : Quad) : ℚ := qWidth q * qHeight q

/-- The center abscissa `const cx = (q[0] + q[2] + q[4] + q[6]) / 4`. -/
def qCx (q : Quad) : ℚ := (q.x1 + q.x2 + q.x3 + q.x4) / 4

/-- The center ordinate `const cy = (q[1] + q[3] + q[5] + q[7]) / 4`. -/
def qCy (q : Quad) : ℚ := (q.y1 + q.y2 + q.y3 + q.y4) / 4

/-- JavaScript `Math.round`: round half toward positive infinity. -/
def jsRound (x : ℚ) : ℤ := ⌊x + 1 / 2⌋

/-- The `best` accumulator of the `pickNode` loop: `{ bid, cx, cy, area }`. -/
structure Best where
  bid : Nat
  cx : ℚ
  cy : ℚ
  area : ℚ
deriving DecidableEq, Repr

/-- The value `pickNode` returns on success:
`{ bid, cx: Math.round(best.cx), cy: Math.round(best.cy) }`. -/
structure Picked where
  bid : Nat
  cx : ℤ
  cy : ℤ
deriving DecidableEq, Repr

def mkBest (bid : Nat) (q : Quad) : Best :=
  { bid := bid, cx := qCx q, cy := qCy q, area := qArea q }

def finishBest (b : Best) : Picked :=
  { bid := b.bid, cx := jsRound b.cx, cy := jsRound b.cy }

/-- The `for (const bid of backendIds)` loop of `pickNode`, restricted to
candidates whose box-model query returned a quadrilateral (the `!q ||
q.length < 8` skips are outside the scope of this pure version; the
strategy-level `pickNodeE` below also covers those).  The accumulator is
replaced exactly when `!best || area > best.area`. -/
def pickLoop : List (Nat × Quad) → Option Best → Option Best
  | [], best => best
  | (bid, q) :: rest, best =>
      if qInvisible q then pickLoop rest best
      else
        match best with
        | none => pickLoop rest (some (mkBest bid q))
        | some b =>
            if b.area < qArea q then pickLoop rest (some (mkBest bid q))
            else pickLoop rest best

/-- The whole of `pickNode` on a list of candidates whose box queries all returned a
quadrilateral: run the loop and round the winning center. -/
def pickNodeOf (l : List (Nat × Quad)) : Option Picked :=
  (pickLoop l none).map finishBest

/-! ### The click strategies of `1-newchat-opener.js`

Every `await call(...)` is a CDP round trip whose promise either fulfils
with a response or rejects (timeout, transport, protocol error).  The
`World` structure below is a pure oracle giving the outcome of each call
site; `Except Unit α` is the promise — `.error ()` is a rejection, which
propagates out of a strategy unless the source wraps the call site in
`try { ... } catch { ... }`.  Raw response navigation such as
`bm?.model?.content` is folded into the oracle's `Option` results. -/

/-- Default of `NEWCHAT_AX_NAME` (no environment override modelled). -/
def AX_NAME : String := "开启新对话"

/-- Default of `NEWCHAT_AX_ROLE`. -/
def AX_ROLE : String := "button"

/-- Whether `hay` starts with `needle`, on character lists. -/
def startsWithL : List Char → List Char → Bool
  | _, [] => true
  | [], _ :: _ => false
  | a :: as, b :: bs => a == b && startsWithL as bs

/-- Whether `needle` occurs somewhere in `hay`, on character lists. -/
def containsL : List Char → List Char → Bool
  | [], needle => needle.isEmpty
  | a :: as, needle => startsWithL (a :: as) needle || containsL as needle

/-- JavaScript `hay.includes(needle)` (substring containment). -/
def jsIncludes (hay needle : String) : Bool :=
  containsL hay.data needle.data

/-- Truthiness of a possibly-missing JS number (`0` and `undefined` are falsy). -/
def jsTruthyNat : Option Nat → Bool
  | none => false
  | some n => n != 0

/-- Truthiness of a possibly-missing JS string (`""` and `undefined` are falsy). -/
def jsTruthyStr : Option String → Bool
  | none => false
  | some s => !s.isEmpty

/-- One node of an `Accessibility.getFullAXTree` / `Accessibility.queryAXTree`
response: `n?.role?.value || ''`, `n?.name?.value || ''`,
`n?.backendDOMNodeId`, `n?.nodeId`. -/
structure AXNode where
  role : String := ""
  name : String := ""
  backendId : Option Nat := none
  nodeId : Option Nat := none
deriving DecidableEq, Repr

/-- The result objects the strategies, the retry loop and the fallback
branch of `main` pass around: `{ ok, x?, y?, via?, backendNodeId? }`.
A field that the constructing site did not set is `none` (JS `undefined`). -/
structure Result where
  ok : Bool
  x : Option ℤ := none
  y : Option ℤ := none
  via : Option String := none
  backendNodeId : Option Nat := none
deriving DecidableEq, Repr

/-- The value of the `verifyNewChat` in-page expression: its source returns
either `{ ok:false }` or `{ ok:true, via:'verify' }`, never coordinates. -/
structure VerifyResult where
  ok : Bool
  via : Option String := none
deriving DecidableEq, Repr

/-- Outcomes of every CDP call site used by the strategies, the verifier and
`main`.  A `.error ()` models a rejected `call(...)` promise. -/
structure World where
  /-- `DOM.getDocument` → `doc?.root?.nodeId` (`none` also covers a falsy id). -/
  getDocument : Except Unit (Option Nat)
  /-- `Accessibility.queryAXTree` → `q?.nodes || []`. -/
  queryAX : Except Unit (List AXNode)
  /-- `Accessibility.getFullAXTree` → `ax?.nodes || []`. -/
  fullAX : Except Unit (List AXNode)
  /-- `DOM.getBoxModel` per backend node id → the usable quadrilateral of
  `bm?.model?.content || border || margin`, `none` when absent or shorter
  than 8 entries. -/
  getBoxModel : Nat → Except Unit (Option Quad)
  /-- `DOM.resolveNode` per backend node id → `rn?.object?.objectId`. -/
  resolveNode : Nat → Except Unit (Option String)
  /-- `Runtime.callFunctionOn` reading `innerText || textContent || ""`
  per object id → `txt?.result?.result?.value`. -/
  nodeText : String → Except Unit (Option String)
  /-- `Runtime.callFunctionOn` running `scrollIntoView(); click()` per object id. -/
  nativeClick : String → Except Unit Unit
  /-- `Input.dispatchMouseEvent {type:'mousePressed', x, y}`. -/
  dispatchPress : ℤ → ℤ → Except Unit Unit
  /-- `Input.dispatchMouseEvent {type:'mouseReleased', x, y}`. -/
  dispatchRelease : ℤ → ℤ → Except Unit Unit
  /-- `Runtime.evaluate` of the `clickByDOM` in-page script →
  `r?.result?.result?.value` (the script returns a result-shaped object). -/
  domEval : Except Unit (Option Result)
  /-- `Page.getFrameTree`, flattened to frame ids in iteration order. -/
  frameTree : Except Unit (List Nat)
  /-- `Page.createIsolatedWorld` per frame id → `iw?.executionContextId`. -/
  isoWorld : Nat → Except Unit (Option Nat)
  /-- `Runtime.evaluate` of the per-frame script in that frame's context →
  `rv?.result?.result?.value`. -/
  frameEval : Nat → Except Unit (Option Result)
  /-- `Runtime.evaluate` of the `verifyNewChat` in-page expression →
  `r?.result?.result?.value`. -/
  verifyEval : Except Unit (Option VerifyResult)

/-- The `for (const bid of backendIds)` loop of `pickNode` issuing one
`DOM.getBoxModel` per id; a rejected call propagates (no `try` inside
`pickNode`), `none` models the `!q || q.length < 8` skip. -/
def pickNodeE (gbm : Nat → Except Unit (Option Quad)) :
    List Nat → Option Best → Except Unit (Option Best)
  | [], best => Except.ok best
  | bid :: rest, best =>
      match gbm bid with
      | Except.error e => Except.error e
      | Except.ok none => pickNodeE gbm rest best
      | Except.ok (some q) =>
          if qInvisible q then pickNodeE gbm rest best
          else
            match best with
            | none => pickNodeE gbm rest (some (mkBest bid q))
            | some b =>
                if b.area < qArea q then pickNodeE gbm rest (some (mkBest bid q))
                else pickNodeE gbm rest best

/-- The call `pickNode(call, backendIds)`: run the loop, return null or the rounded
winner. -/
def pickNodeCall (gbm : Nat → Except Unit (Option Quad)) (bids : List Nat) :
    Except Unit (Option Picked) :=
  match pickNodeE gbm bids none with
  | Except.error e => Except.error e
  | Except.ok b => Except.ok (b.map finishBest)

/-- The inner `try { DOM.resolveNode; if (oid) { Runtime.callFunctionOn
click } } catch {}` of `clickByAXQuery` (lines 252-259): `true` exactly when
the native-click return was reached. -/
def axQueryNative (w : World) (p : Picked) : Bool :=
  match w.resolveNode p.bid with
  | Except.error _ => false
  | Except.ok oid =>
      if jsTruthyStr oid then
        match w.nativeClick (oid.getD "") with
        | Except.ok _ => true
        | Except.error _ => false
      else false

/-- The backend ids `clickByAXQuery` queries geometry for (lines 246-248):
`(q?.nodes || []).filter(role === AX_ROLE).map(backendDOMNodeId || null).filter(Boolean)`. -/
def axqBids (arr : List AXNode) : List Nat :=
  ((arr.filter (fun n => n.role == AX_ROLE)).filterMap
    (fun n => n.backendId)).filter (fun b => b != 0)

/-- Body of the big `try` of `clickByAXQuery` (lines 244-262): query the AX
tree by accessible name, filter by role, pick by geometry, then click
natively or by synthetic mouse events.  Every rejection inside this body is
caught by the strategy's `catch`. -/
def clickByAXQueryBody (w : World) : Except Unit Result :=
  match w.queryAX with
  | Except.error e => Except.error e
  | Except.ok arr =>
      if (axqBids arr).isEmpty then Except.ok { ok := false }
      else
        match pickNodeCall w.getBoxModel (axqBids arr) with
        | Except.error e => Except.error e
        | Except.ok none => Except.ok { ok := false }
        | Except.ok (some p) =>
            if axQueryNative w p then
              Except.ok { ok := true, backendNodeId := some p.bid,
                          x := some p.cx, y := some p.cy, via := some "axQuery" }
            else
              match w.dispatchPress p.cx p.cy with
              | Except.error e => Except.error e
              | Except.ok _ =>
                  match w.dispatchRelease p.cx p.cy with
                  | Except.error e => Except.error e
                  | Except.ok _ =>
                      Except.ok { ok := true, backendNodeId := some p.bid,
                                  x := some p.cx, y := some p.cy,
                                  via := some "axQueryDispatch" }

/-- Strategy 1, `clickByAXQuery` (lines 240-266).  `DOM.getDocument` sits
outside the `try`, so its rejection propagates; everything after it is
caught and converted to `{ ok:false }`. -/
def clickByAXQuery (w : World) : Except Unit Result :=
  match w.getDocument with
  | Except.error e => Except.error e
  | Except.ok nid =>
      if !jsTruthyNat nid then Except.ok { ok := false }
      else
        match clickByAXQueryBody w with
        | Except.ok r => Except.ok r
        | Except.error _ => Except.ok { ok := false }

/-- Candidate filter of `clickByAX` (lines 182-190): keep nodes with a
truthy `backendDOMNodeId` or `nodeId` whose truthy name contains `AX_NAME`
and whose role equals `AX_ROLE`; then `cands.map(x => x.bid).filter(Boolean)`. -/
def axCandidateBids (nodes : List AXNode) : List Nat :=
  ((nodes.filter (fun n =>
      (jsTruthyNat n.backendId || jsTruthyNat n.nodeId)
        && (!n.name.isEmpty && jsIncludes n.name AX_NAME && n.role == AX_ROLE))).filterMap
    (fun n => n.backendId)).filter (fun b => b != 0)

/-- The geometry pick of `clickByAX` (lines 179-192): full AX tree scan,
candidate filter, then `bids.length ? await pickNode(call, bids) : null`.
Rejections of the tree call and of the box-model calls propagate — this part
of `clickByAX` is not inside any `try`. -/
def axPicked (w : World) : Except Unit (Option Picked) :=
  match w.fullAX with
  | Except.error e => Except.error e
  | Except.ok nodes =>
      if (axCandidateBids nodes).isEmpty then Except.ok none
      else pickNodeCall w.getBoxModel (axCandidateBids nodes)

/-- The `try { resolveNode; text; native click } catch {}` of `clickByAX`
(lines 193-204): `true` exactly when an object reference was obtained, its
`innerText || textContent` contains `AX_NAME`, and the native
scroll-into-view-and-click call fulfilled — any rejection or a
non-matching text falls through to the synthetic-mouse fallback. -/
def axNativeTaken (w : World) (p : Picked) : Bool :=
  match w.resolveNode p.bid with
  | Except.error _ => false
  | Except.ok oid =>
      if jsTruthyStr oid then
        match w.nodeText (oid.getD "") with
        | Except.error _ => false
        | Except.ok txt =>
            if jsIncludes (txt.getD "") AX_NAME then
              match w.nativeClick (oid.getD "") with
              | Except.ok _ => true
              | Except.error _ => false
            else false
      else false

/-- Strategy 2, `clickByAX` (lines 178-208): full accessibility scan, pick
by geometry, then either the native path or synthetic `mousePressed` /
`mouseReleased` at the picked center — both reported as success. -/
def clickByAX (w : World) : Except Unit Result :=
  match axPicked w with
  | Except.error e => Except.error e
  | Except.ok none => Except.ok { ok := false }
  | Except.ok (some p) =>
      if axNativeTaken w p then
        Except.ok { ok := true, backendNodeId := some p.bid,
                    x := some p.cx, y := some p.cy, via := some "callFunctionOn" }
      else
        match w.dispatchPress p.cx p.cy with
        | Except.error e => Except.error e
        | Except.ok _ =>
            match w.dispatchRelease p.cx p.cy with
            | Except.error e => Except.error e
            | Except.ok _ =>
                Except.ok { ok := true, backendNodeId := some p.bid,
                            x := some p.cx, y := some p.cy,
                            via := some "dispatchMouseEvent" }

/-- Strategy 3, `clickByDOM` (lines 210-216): evaluate the in-page script;
`if (!v || !v.ok) return { ok:false }; return v`. -/
def clickByDOM (w : World) : Except Unit Result :=
  match w.domEval with
  | Except.error e => Except.error e
  | Except.ok none => Except.ok { ok := false }
  | Except.ok (some v) => if v.ok then Except.ok v else Except.ok { ok := false }

/-- The `for (const fid of frames)` loop of `clickByFrames` (lines 228-236):
per frame a `try { createIsolatedWorld; evaluate; if (v && v.ok) return v }
catch {}`, so any rejection or a non-ok value moves on to the next frame. -/
def framesLoop (w : World) : List Nat → Result
  | [] => { ok := false }
  | fid :: rest =>
      match w.isoWorld fid with
      | Except.error _ => framesLoop w rest
      | Except.ok _ =>
          match w.frameEval fid with
          | Except.error _ => framesLoop w rest
          | Except.ok none => framesLoop w rest
          | Except.ok (some v) => if v.ok then v else framesLoop w rest

/-- Strategy 4, `clickByFrames` (lines 218-238): `Page.getFrameTree`
(rejection propagates — it is outside the per-frame `try`), then the
per-frame loop, `{ ok:false }` when every frame fails. -/
def clickByFrames (w : World) : Except Unit Result :=
  match w.frameTree with
  | Except.error e => Except.error e
  | Except.ok frames => Except.ok (framesLoop w frames)

/-- The verifier `verifyNewChat` (lines 268-284): evaluate the read-only expression and
return `r?.result?.result?.value || { ok:false }`. -/
def verifyNewChatE (w : World) : Except Unit VerifyResult :=
  match w.verifyEval with
  | Except.error e => Except.error e
  | Except.ok v => Except.ok (v.getD { ok := false })

/-- The four strategies in the order `main` tries them (lines 348-351). -/
inductive Strat
  | axQuery
  | ax
  | dom
  | frames
deriving DecidableEq, Repr

def chainOrder : List Strat := [Strat.axQuery, Strat.ax, Strat.dom, Strat.frames]

def stratFn : Strat → World → Except Unit Result
  | Strat.axQuery => clickByAXQuery
  | Strat.ax => clickByAX
  | Strat.dom => clickByDOM
  | Strat.frames => clickByFrames

/-- One attempt of `main`'s loop body (lines 348-351):
`r = await clickByAXQuery(call); if (!r.ok) r = await clickByAX(call);
if (!r.ok) r = await clickByDOM(call); if (!r.ok) r = await clickByFrames(call)`.
The second component is the ghost log of the strategies that were invoked. -/
def runChain (w : World) : Except Unit Result × List Strat :=
  match clickByAXQuery w with
  | Except.error e => (Except.error e, [Strat.axQuery])
  | Except.ok r1 =>
      if r1.ok then (Except.ok r1, [Strat.axQuery])
      else
        match clickByAX w with
        | Except.error e => (Except.error e, [Strat.axQuery, Strat.ax])
        | Except.ok r2 =>
            if r2.ok then (Except.ok r2, [Strat.axQuery, Strat.ax])
            else
              match clickByDOM w with
              | Except.error e => (Except.error e, [Strat.axQuery, Strat.ax, Strat.dom])
              | Except.ok r3 =>
                  if r3.ok then (Except.ok r3, [Strat.axQuery, Strat.ax, Strat.dom])
                  else
                    match clickByFrames w with
                    | Except.error e => (Except.error e, chainOrder)
                    | Except.ok r4 => (Except.ok r4, chainOrder)

/-- Index of the last strategy the chain invokes, as a function of the four
success flags: the first set flag, or 3 when none is set (the fourth flag
does not influence how far the chain advances). -/
def firstOkIdx (b1 b2 b3 _b4 : Bool) : Nat :=
  if b1 then 0 else if b2 then 1 else if b3 then 2 else 3

/-- The retry loop of `main` (lines 342-357):
`for (let attempt=0; attempt<5 && !r.ok; attempt++) { r = <chain>;
if (!r.ok) await sleep(500); if (Date.now() - start > MAX_TOTAL_MS) break }`.
`ws attempt` is the world of one attempt's round trips, `clock attempt` the
value of `Date.now() - start` at that attempt's deadline check.  Returns the
promise of the final `r` and the number of attempts performed. -/
def mainLoop (ws : Nat → World) (clock : Nat → Nat) (maxT : Nat) :
    Nat → Nat → Result → Except Unit Result × Nat
  | 0, a, r => (Except.ok r, a)
  | fuel + 1, a, r =>
      if r.ok then (Except.ok r, a)
      else
        match (runChain (ws a)).1 with
        | Except.error e => (Except.error e, a + 1)
        | Except.ok r' =>
            if maxT < clock a then (Except.ok r', a + 1)
            else mainLoop ws clock maxT fuel (a + 1) r'

/-- The whole loop as `main` runs it: up to 5 attempts from `r = { ok:false }`. -/
def runMain (ws : Nat → World) (clock : Nat → Nat) (maxT : Nat) :
    Except Unit Result × Nat :=
  mainLoop ws clock maxT 5 0 { ok := false }

/-- The value of `r` when control reaches the fallback branch at line 365
(`if (!r.ok && r.x!==undefined && r.y!==undefined)`): the loop's result,
replaced by the verifier's value when the loop failed and `verifyNewChat`
answered `ok` (lines 359-363).  `.error` means an uncaught rejection, which
jumps to `main`'s `catch` and never reaches line 365. -/
def resultAt365 (ws : Nat → World) (clock : Nat → Nat) (maxT : Nat)
    (vw : World) : Except Unit Result :=
  match (runMain ws clock maxT).1 with
  | Except.error e => Except.error e
  | Except.ok r =>
      if r.ok then Except.ok r
      else
        match verifyNewChatE vw with
        | Except.error e => Except.error e
        | Except.ok v =>
            if v.ok then Except.ok { ok := v.ok, via := v.via }
            else Except.ok r

/-- The guard of the fallback branch at line 365:
`!r.ok && r.x !== undefined && r.y !== undefined`. -/
def fallbackGuard (r : Result) : Bool :=
  !r.ok && (r.x.isSome && r.y.isSome)

/-- A world in which every CDP call fulfils but nothing is found: no
document root, empty accessibility trees, no box models, no script hits,
no frames, no verifier hit.  All four strategies fail normally here. -/
def wAllFail : World :=
  { getDocument := Except.ok none
    queryAX := Except.ok []
    fullAX := Except.ok []
    getBoxModel := fun _ => Except.ok none
    resolveNode := fun _ => Except.ok none
    nodeText := fun _ => Except.ok none
    nativeClick := fun _ => Except.ok ()
    dispatchPress := fun _ _ => Except.ok ()
    dispatchRelease := fun _ _ => Except.ok ()
    domEval := Except.ok none
    frameTree := Except.ok []
    isoWorld := fun _ => Except.ok none
    frameEval := fun _ => Except.ok none
    verifyEval := Except.ok none }

/-- A 10×10 square at the origin, corner order as `DOM.getBoxModel` lists it. -/
def squareQuad : Quad :=
  { x1 := 0, y1 := 0, x2 := 10, y2 := 0, x3 := 10, y3 := 10, x4 := 0, y4 := 10 }

/-- A world in which the full accessibility scan finds one matching button
(backend node id 5) with a 10×10 box, but no live object reference can be
obtained, so `clickByAX` must take its synthetic-mouse fallback. -/
def wAxPick : World :=
  { wAllFail with
    fullAX := Except.ok [{ role := "button", name := "开启新对话", backendId := some 5 }]
    getBoxModel := fun _ => Except.ok (some squareQuad) }

/-! ### The injected entry-and-submit script of `2-chat-injector.js`

`injection(text)` (lines 66-119) builds one in-page expression that finds
an input control, focuses it, writes `text` into it with
framework-friendly events, *always* dispatches an Enter keydown/keyup pair
at the input element (lines 91-92), then searches `btnSels` for a submit
control: if one is found it receives pointer/mouse events, otherwise a
second Enter pair goes to `document.activeElement || el`.  The model
replays the script's dispatch sequence as a list of events; since the
script itself calls `el.focus()` and tracks no other focus change, the
active element is modelled as the input element. -/

/-- Event targets of the injected script. -/
inductive PageTgt
  | inputEl
  | submitBtn
deriving DecidableEq, Repr

/-- Observable DOM actions of the injected script, in dispatch order. -/
inductive InjEvent
  | focus
  | setValueSetter (s : String)
  | setValueDirect (s : String)
  | rangeClear
  | setTextContent (s : String)
  | typedInput (s : String)
  | plainInput
  | changeEvent
  | enterDown (t : PageTgt)
  | enterUp (t : PageTgt)
  | pointerDown (t : PageTgt)
  | mouseDown (t : PageTgt)
  | clickEvent (t : PageTgt)
  | mouseUp (t : PageTgt)
deriving DecidableEq, Repr

/-- Which branch of the text-entry `if` (lines 76-90) the found control
takes: a native `textarea`/`input[type=text]` (with or without a prototype
`value` setter), a contenteditable node, or anything else. -/
inductive InputKind
  | nativeText (hasSetter : Bool)
  | editable
  | otherEl
deriving DecidableEq, Repr

/-- The page as the injected script observes it: the first `sels` match (if
any) and whether any `btnSels` selector matches in the container or the
document. -/
structure InjPage where
  input : Option InputKind
  submitFound : Bool
deriving DecidableEq, Repr

/-- The script's return value `{ ok, msg? }` (selector/tag diagnostics are
not modelled). -/
structure InjResult where
  ok : Bool
  msg : Option String := none
deriving DecidableEq, Repr

/-- The text-entry events per control kind (lines 76-90): value injection
through the prototype setter or direct assignment plus
`InputEvent`/`input`/`change` for native controls; range-clear,
`textContent` and `InputEvent`/`input` for contenteditable; `textContent`
and `input` for anything else. -/
def entryEvents (text : String) : InputKind → List InjEvent
  | InputKind.nativeText hasSetter =>
      [if hasSetter then InjEvent.setValueSetter text else InjEvent.setValueDirect text,
       InjEvent.typedInput text, InjEvent.plainInput, InjEvent.changeEvent]
  | InputKind.editable =>
      [InjEvent.rangeClear, InjEvent.setTextContent text,
       InjEvent.typedInput text, InjEvent.plainInput]
  | InputKind.otherEl => [InjEvent.setTextContent text, InjEvent.plainInput]

/-- The submission events (lines 104-116): pointer/mouse events on a found
submit control, else an Enter pair at the active element. -/
def submitEvents (submitFound : Bool) : List InjEvent :=
  if submitFound then
    [InjEvent.pointerDown PageTgt.submitBtn, InjEvent.mouseDown PageTgt.submitBtn,
     InjEvent.clickEvent PageTgt.submitBtn, InjEvent.mouseUp PageTgt.submitBtn]
  else [InjEvent.enterDown PageTgt.inputEl, InjEvent.enterUp PageTgt.inputEl]

/-- The whole injected script (lines 68-118): result value and dispatched
events.  Note the unconditional Enter pair of lines 91-92 between text
entry and the submit-control search. -/
def injectionRun (text : String) (p : InjPage) : InjResult × List InjEvent :=
  match p.input with
  | none => ({ ok := false, msg := some "no input" }, [])
  | some k =>
      ({ ok := true },
        InjEvent.focus :: (entryEvents text k
          ++ [InjEvent.enterDown PageTgt.inputEl, InjEvent.enterUp PageTgt.inputEl]
          ++ submitEvents p.submitFound))

/-- Holds (`true`) exactly for an Enter keydown aimed at the input element. -/
def isEnterDownAtInput : InjEvent → Bool
  | InjEvent.enterDown PageTgt.inputEl => true
  | _ => false

/-- Holds (`true`) exactly for a click event aimed at the submit control. -/
def isClickAtSubmit : InjEvent → Bool
  | InjEvent.clickEvent PageTgt.submitBtn => true
  | _ => false

/-- The page of the counterexample: a native input with a working setter
and a present submit control. -/
def pageWithButton : InjPage :=
  { input := some (InputKind.nativeText true), submitFound := true }

/-! ### The `verifyNewChat` in-page expression (lines 269-281)

The expression queries five selectors in order, takes the first match,
reads its tag, `type`, `isContentEditable`, `value`/`textContent` and
`placeholder`, and answers — every step is a read.  The model threads the
page state through each primitive so that mutation (if any existed) would
show up in the returned state. -/

/-- The five selectors `['textarea', '[contenteditable="true"]',
'[role="textbox"]', 'input[type="text"]', '.ProseMirror']`. -/
inductive VSel
  | textareaSel
  | editableSel
  | roleTextboxSel
  | inputTextSel
  | proseMirrorSel
deriving DecidableEq, Repr

/-- A DOM element as the verify expression can observe it.  The `sel*`
flags say which of the five selectors the element matches. -/
structure VElem where
  selTextarea : Bool := false
  selEditable : Bool := false
  selRoleTextbox : Bool := false
  selInputText : Bool := false
  selProseMirror : Bool := false
  tagName : String := ""
  typeProp : String := ""
  isContentEditable : Bool := false
  value : Option String := none
  textContent : String := ""
  placeholder : Option String := none
deriving DecidableEq, Repr

def selMatches (e : VElem) : VSel → Bool
  | VSel.textareaSel => e.selTextarea
  | VSel.editableSel => e.selEditable
  | VSel.roleTextboxSel => e.selRoleTextbox
  | VSel.inputTextSel => e.selInputText
  | VSel.proseMirrorSel => e.selProseMirror

/-- The document the expression runs against: elements in document order. -/
structure PageState where
  elems : List VElem
deriving DecidableEq, Repr

/-- The read `document.querySelector(q)`: first matching element; a read, so the
state comes back unchanged. -/
def querySelectorST (v : VSel) (s : PageState) : Option VElem × PageState :=
  (s.elems.find? (fun e => selMatches e v), s)

/-- The `for (const q of qs) { ... if (e) { el = e; break } }` loop. -/
def findFirstST : List VSel → PageState → Option VElem × PageState
  | [], s => (none, s)
  | v :: rest, s =>
      match querySelectorST v s with
      | (some e, s1) => (some e, s1)
      | (none, s1) => findFirstST rest s1

def readTagST (e : VElem) (s : PageState) : String × PageState := (e.tagName, s)

def readTypeST (e : VElem) (s : PageState) : String × PageState := (e.typeProp, s)

def readEditableST (e : VElem) (s : PageState) : Bool × PageState :=
  (e.isContentEditable, s)

def readValueST (e : VElem) (s : PageState) : Option String × PageState := (e.value, s)

def readTextContentST (e : VElem) (s : PageState) : String × PageState :=
  (e.textContent, s)

def readPlaceholderST (e : VElem) (s : PageState) : String × PageState :=
  (e.placeholder.getD "", s)

/-- The regex `/输入|消息|message|chat|send/i` on the placeholder. -/
def phPattern (ph : String) : Bool :=
  jsIncludes ph "输入" || jsIncludes ph "消息" ||
    jsIncludes ph.toLower "message" || jsIncludes ph.toLower "chat" ||
    jsIncludes ph.toLower "send"

def verifySels : List VSel :=
  [VSel.textareaSel, VSel.editableSel, VSel.roleTextboxSel,
   VSel.inputTextSel, VSel.proseMirrorSel]

/-- The whole verify expression as a state transformer: its answer and the
page state it leaves behind. -/
def verifyRun (s : PageState) : VerifyResult × PageState :=
  match findFirstST verifySels s with
  | (none, s1) => ({ ok := false }, s1)
  | (some el, s1) =>
      let (tag, s2) := readTagST el s1
      let tagL := tag.toLower
      let (ice, s3) := readEditableST el s2
      let (ty, s4) := readTypeST el s3
      let editable := tagL == "textarea" || (tagL == "input" && ty == "text") || ice
      let (v, s5) := readValueST el s4
      let (txt, s6) := readTextContentST el s5
      let val := (match v with | some vv => vv | none => txt).trim
      let (ph, s7) := readPlaceholderST el s6
      if editable && (val.length == 0 && phPattern ph) then
        ({ ok := true, via := some "verify" }, s7)
      else ({ ok := false }, s7)

end ChromeRpa

namespace ChromeRpa

/-! ### Retry-loop lemmas (claim C7) -/

/-- The loop performs at most `fuel` further attempts. -/
theorem mainLoop_count_le (ws : Nat → World) (clock : Nat → Nat) (maxT : Nat) :
    ∀ fuel a r, (mainLoop ws clock maxT fuel a r).2 ≤ a + fuel := by
  intro fuel
  induction fuel with
  | zero => intro a r; simp [mainLoop]
  | succ n ih =>
      intro a r
      simp only [mainLoop]
      cases hr : r.ok
      · simp only [Bool.false_eq_true, if_false]
        cases hc : (runChain (ws a)).1 with
        | error e => simp
        | ok rc =>
            by_cases hd : maxT < clock a
            · simp [hd]
            · have := ih (a + 1) rc
              simp only [hd, if_false]
              omega
      · simp

/-- Once the deadline check of some performed or future attempt `k` fires
(`clock k > maxT`), the loop performs no attempt beyond index `k`. -/
theorem mainLoop_deadline (ws : Nat → World) (clock : Nat → Nat) (maxT k : Nat)
    (hk : maxT < clock k) :
    ∀ fuel a r, a ≤ k → (mainLoop ws clock maxT fuel a r).2 ≤ k + 1 := by
  intro fuel
  induction fuel with
  | zero => intro a r ha; simp [mainLoop]; omega
  | succ n ih =>
      intro a r ha
      simp only [mainLoop]
      cases hr : r.ok
      · simp only [Bool.false_eq_true, if_false]
        cases hc : (runChain (ws a)).1 with
        | error e => simp; omega
        | ok rc =>
            by_cases hd : maxT < clock a
            · simp [hd]; omega
            · have hak : a ≠ k := by
                intro h
                exact hd (h ▸ hk)
              have := ih (a + 1) rc (by omega)
              simp only [hd, if_false]
              omega
      · simp; omega

/-- Claim C7: the retry loop of `main` is bounded by the attempt count and
by the wall-clock deadline, each enforced on its own — at most 5 attempts
ever run, however fast they fail, and whenever `Date.now() - start`
exceeds `MAX_TOTAL_MS` at attempt `k`'s deadline check (or would at an
earlier one) no attempt beyond index `k` is performed, whichever bound
triggers first. -/
theorem retry_loop_bounds (ws : Nat → World) (clock : Nat → Nat) (maxT : Nat) :
    (runMain ws clock maxT).2 ≤ 5
  ∧ (∀ k, maxT < clock k → (runMain ws clock maxT).2 ≤ k + 1) := by
  constructor
  · simpa using mainLoop_count_le ws clock maxT 5 0 { ok := false }
  · intro k hk
    exact mainLoop_deadline ws clock maxT k hk 5 0 { ok := false } (Nat.zero_le k)

/-! ### Theorems about the multiplexers (claims C1, C2, C3) -/

/-- Claim C1 (code bug): a pending call is NOT always settled exactly once.
With two calls in flight on the opener's multiplexer and no responses, call
1's timeout callback reads the shared `id` variable (now 2) and deletes call
2's pending entry while rejecting call 1.  Call 2's own timer then finds its
entry gone and does nothing, and the close handler only settles the
leftover entry of call 1 a second time.  Net effect on this trace: call 1's
callbacks fire twice and call 2's never fire although its deadline passed. -/
theorem opener_concurrent_timeout_miscounts :
    settleCount 1 (openerRun
      [MuxEvent.issue, MuxEvent.issue, MuxEvent.timerFire 1,
       MuxEvent.timerFire 2, MuxEvent.wsClose]) = 2
  ∧ settleCount 2 (openerRun
      [MuxEvent.issue, MuxEvent.issue, MuxEvent.timerFire 1,
       MuxEvent.timerFire 2, MuxEvent.wsClose]) = 0 := by
  decide

/-- Claim C2 (corrected): on a matching inbound frame that carries an `error`
field, the opener's multiplexer rejects the call (`ProtocolError`-style),
but the injector's multiplexer resolves the call with the error-bearing
frame as a successful payload — its message handler never inspects
`d.error`. -/
theorem error_frame_settlement (s : MuxState) (rid : Nat) (h : rid ∈ s.table) :
    (openerStep s (MuxEvent.response rid true)).log
      = s.log ++ [(rid, Settle.protoErr)]
  ∧ (injectorStep s (MuxEvent.response rid true)).log
      = s.log ++ [(rid, Settle.success)] := by
  constructor <;> simp [openerStep, injectorStep, h]

/-- Witness for `error_frame_settlement` at a concrete one-call state. -/
theorem error_frame_settlement_witness :
    (openerStep ⟨1, [1], [1], []⟩ (MuxEvent.response 1 true)).log
      = [(1, Settle.protoErr)]
  ∧ (injectorStep ⟨1, [1], [1], []⟩ (MuxEvent.response 1 true)).log
      = [(1, Settle.success)] := by
  have h := error_frame_settlement ⟨1, [1], [1], []⟩ 1 (by decide)
  simpa using h

/-- Counterexample for claim C2 as stated over both multiplexers: the
injector's multiplexer resolves a call whose matching frame has an explicit
error field. -/
theorem injector_resolves_error_frame :
    (injectorRun [MuxEvent.issue, MuxEvent.response 1 true]).log
      = [(1, Settle.success)] := by
  decide

/-- Claim C3 (corrected): on connection close/error the opener's multiplexer
rejects every pending call and empties the table (and clears their timers),
but the injector's multiplexer has no `close`/`error` handler at all, so a
close leaves its state — pending calls included — completely untouched. -/
theorem close_settles_pending (s : MuxState) :
    (openerStep s MuxEvent.wsClose).table = []
  ∧ (openerStep s MuxEvent.wsClose).log
      = s.log ++ s.table.map (fun k => (k, Settle.transport))
  ∧ injectorStep s MuxEvent.wsClose = s := by
  refine ⟨rfl, rfl, rfl⟩

/-- Counterexample for claim C3 as stated over both multiplexers: after a
close, the injector's multiplexer still has call 1 pending and unsettled. -/
theorem injector_close_leaves_pending :
    (injectorRun [MuxEvent.issue, MuxEvent.wsClose]).table = [1]
  ∧ (injectorRun [MuxEvent.issue, MuxEvent.wsClose]).log = [] := by
  decide

/-! ### Geometry selector lemmas (claim C5) -/

/-- The `pickNode` loop yields no candidate exactly when the accumulator was
empty and every listed candidate fails the `width < 1 || height < 1` test. -/
theorem pickLoop_eq_none_iff (l : List (Nat × Quad)) :
    ∀ acc : Option Best,
      pickLoop l acc = none ↔ acc = none ∧ ∀ p ∈ l, qInvisible p.2 := by
  induction l with
  | nil => intro acc; simp [pickLoop]
  | cons hd rest ih =>
      intro acc
      obtain ⟨bid, q⟩ := hd
      by_cases hq : qInvisible q
      · simp only [pickLoop, if_pos hq, ih]
        constructor
        · rintro ⟨h1, h2⟩
          refine ⟨h1, ?_⟩
          intro p hp
          rcases List.mem_cons.mp hp with h | h
          · rw [h]; exact hq
          · exact h2 p h
        · rintro ⟨h1, h2⟩
          exact ⟨h1, fun p hp => h2 p (List.mem_cons_of_mem _ hp)⟩
      · cases acc with
        | none =>
            simp only [pickLoop, if_neg hq, ih]
            constructor
            · rintro ⟨h, -⟩; exact absurd h (by simp)
            · rintro ⟨-, h⟩
              exact absurd (h (bid, q) (List.mem_cons_self _ _)) hq
        | some b =>
            constructor
            · intro h
              exfalso
              simp only [pickLoop, if_neg hq] at h
              rcases lt_or_ge b.area (qArea q) with hlt | hge
              · rw [if_pos hlt, ih] at h
                exact absurd h.1 (by simp)
              · rw [if_neg (not_lt.mpr hge), ih] at h
                exact absurd h.1 (by simp)
            · rintro ⟨h, -⟩; exact absurd h (by simp)

/-- Behaviour of the `pickNode` loop on a non-empty accumulator: the result
is either the accumulator itself (every surviving candidate has area at
most the accumulator's) or the first listed candidate of maximal area that
strictly beats the accumulator — strictly greater than every surviving
candidate before it, at least as large as every surviving candidate. -/
theorem pickLoop_acc_spec (l : List (Nat × Quad)) :
    ∀ a b : Best,
      pickLoop l (some a) = some b →
        (b = a ∧ ∀ p ∈ l, ¬ qInvisible p.2 → qArea p.2 ≤ a.area)
      ∨ (∃ pre sel post, l = pre ++ sel :: post
           ∧ ¬ qInvisible sel.2
           ∧ b = mkBest sel.1 sel.2
           ∧ a.area < qArea sel.2
           ∧ (∀ p ∈ pre, ¬ qInvisible p.2 → qArea p.2 < qArea sel.2)
           ∧ (∀ p ∈ l, ¬ qInvisible p.2 → qArea p.2 ≤ qArea sel.2)) := by
  induction l with
  | nil =>
      intro a b h
      left
      simp only [pickLoop] at h
      exact ⟨(Option.some.inj h).symm, by simp⟩
  | cons hd rest ih =>
      intro a b h
      obtain ⟨bid, q⟩ := hd
      by_cases hq : qInvisible q
      · simp only [pickLoop, if_pos hq] at h
        rcases ih a b h with ⟨hb, hall⟩ | ⟨pre, sel, post, hsplit, hvis, hb, hlt, hpre, hall⟩
        · left
          refine ⟨hb, ?_⟩
          intro p hp hpv
          rcases List.mem_cons.mp hp with h' | h'
          · exact absurd (h' ▸ hpv) (by simpa using hq)
          · exact hall p h' hpv
        · right
          refine ⟨(bid, q) :: pre, sel, post, by rw [hsplit]; rfl, hvis, hb, hlt, ?_, ?_⟩
          · intro p hp hpv
            rcases List.mem_cons.mp hp with h' | h'
            · exact absurd (h' ▸ hpv) (by simpa using hq)
            · exact hpre p h' hpv
          · intro p hp hpv
            rcases List.mem_cons.mp hp with h' | h'
            · exact absurd (h' ▸ hpv) (by simpa using hq)
            · exact hall p (hsplit ▸ h') hpv
      · simp only [pickLoop, if_neg hq] at h
        by_cases harea : a.area < qArea q
        · rw [if_pos harea] at h
          rcases ih (mkBest bid q) b h with ⟨hb, hall⟩ | ⟨pre, sel, post, hsplit, hvis, hb, hlt, hpre, hall⟩
          · right
            refine ⟨[], (bid, q), rest, rfl, hq, hb, harea, by simp, ?_⟩
            intro p hp hpv
            rcases List.mem_cons.mp hp with h' | h'
            · rw [h']
            · exact hall p h' hpv
          · right
            have hqlt : qArea q < qArea sel.2 := hlt
            refine ⟨(bid, q) :: pre, sel, post, by rw [hsplit]; rfl, hvis, hb,
              lt_trans harea hqlt, ?_, ?_⟩
            · intro p hp hpv
              rcases List.mem_cons.mp hp with h' | h'
              · rw [h']; exact hqlt
              · exact hpre p h' hpv
            · intro p hp hpv
              rcases List.mem_cons.mp hp with h' | h'
              · rw [h']; exact le_of_lt hqlt
              · exact hall p (hsplit ▸ h') hpv
        · rw [if_neg harea] at h
          rcases ih a b h with ⟨hb, hall⟩ | ⟨pre, sel, post, hsplit, hvis, hb, hlt, hpre, hall⟩
          · left
            refine ⟨hb, ?_⟩
            intro p hp hpv
            rcases List.mem_cons.mp hp with h' | h'
            · rw [h']; exact not_lt.mp harea
            · exact hall p h' hpv
          · right
            refine ⟨(bid, q) :: pre, sel, post, by rw [hsplit]; rfl, hvis, hb, hlt, ?_, ?_⟩
            · intro p hp hpv
              rcases List.mem_cons.mp hp with h' | h'
              · rw [h']; exact lt_of_le_of_lt (not_lt.mp harea) hlt
              · exact hpre p h' hpv
            · intro p hp hpv
              rcases List.mem_cons.mp hp with h' | h'
              · rw [h']; exact le_of_lt (lt_of_le_of_lt (not_lt.mp harea) hlt)
              · exact hall p (hsplit ▸ h') hpv

/-- Starting from the empty accumulator, a successful `pickNode` loop picks
the first candidate of maximal area among the survivors. -/
theorem pickLoop_start_spec (l : List (Nat × Quad)) :
    ∀ b : Best,
      pickLoop l none = some b →
        ∃ pre sel post, l = pre ++ sel :: post
          ∧ ¬ qInvisible sel.2
          ∧ b = mkBest sel.1 sel.2
          ∧ (∀ p ∈ pre, ¬ qInvisible p.2 → qArea p.2 < qArea sel.2)
          ∧ (∀ p ∈ l, ¬ qInvisible p.2 → qArea p.2 ≤ qArea sel.2) := by
  induction l with
  | nil => intro b h; simp [pickLoop] at h
  | cons hd rest ih =>
      intro b h
      obtain ⟨bid, q⟩ := hd
      by_cases hq : qInvisible q
      · simp only [pickLoop, if_pos hq] at h
        obtain ⟨pre, sel, post, hsplit, hvis, hb, hpre, hall⟩ := ih b h
        refine ⟨(bid, q) :: pre, sel, post, by rw [hsplit]; rfl, hvis, hb, ?_, ?_⟩
        · intro p hp hpv
          rcases List.mem_cons.mp hp with h' | h'
          · exact absurd (h' ▸ hpv) (by simpa using hq)
          · exact hpre p h' hpv
        · intro p hp hpv
          rcases List.mem_cons.mp hp with h' | h'
          · exact absurd (h' ▸ hpv) (by simpa using hq)
          · exact hall p (hsplit ▸ h') hpv
      · simp only [pickLoop, if_neg hq] at h
        rcases pickLoop_acc_spec rest (mkBest bid q) b h with
          ⟨hb, hall⟩ | ⟨pre, sel, post, hsplit, hvis, hb, hlt, hpre, hall⟩
        · refine ⟨[], (bid, q), rest, rfl, hq, hb, by simp, ?_⟩
          intro p hp hpv
          rcases List.mem_cons.mp hp with h' | h'
          · rw [h']
          · exact hall p h' hpv
        · have hqlt : qArea q < qArea sel.2 := hlt
          refine ⟨(bid, q) :: pre, sel, post, by rw [hsplit]; rfl, hvis, hb, ?_, ?_⟩
          · intro p hp hpv
            rcases List.mem_cons.mp hp with h' | h'
            · rw [h']; exact hqlt
            · exact hpre p h' hpv
          · intro p hp hpv
            rcases List.mem_cons.mp hp with h' | h'
            · rw [h']; exact le_of_lt hqlt
            · exact hall p (hsplit ▸ h') hpv

/-- Claim C5: `pickNode` discards every candidate with derived width or
height below 1, selects among the survivors the first candidate of maximal
area (ties go to the earlier candidate: everything before the winner is
strictly smaller), returns the rounded average of the quadrilateral's four
corner coordinates as the center, and returns null when nothing survives. -/
theorem pickNode_geometry_selection (l : List (Nat × Quad)) :
    (pickNodeOf l = none ↔ ∀ p ∈ l, qInvisible p.2)
  ∧ (∀ pk, pickNodeOf l = some pk →
      ∃ pre sel post, l = pre ++ sel :: post
        ∧ ¬ qInvisible sel.2
        ∧ pk = { bid := sel.1, cx := jsRound (qCx sel.2), cy := jsRound (qCy sel.2) }
        ∧ (∀ p ∈ pre, ¬ qInvisible p.2 → qArea p.2 < qArea sel.2)
        ∧ (∀ p ∈ l, ¬ qInvisible p.2 → qArea p.2 ≤ qArea sel.2)) := by
  constructor
  · unfold pickNodeOf
    rw [Option.map_eq_none', pickLoop_eq_none_iff]
    simp
  · intro pk hpk
    unfold pickNodeOf at hpk
    rcases Option.map_eq_some'.mp hpk with ⟨b, hb, hfin⟩
    obtain ⟨pre, sel, post, hsplit, hvis, hbv, hpre, hall⟩ := pickLoop_start_spec l b hb
    refine ⟨pre, sel, post, hsplit, hvis, ?_, hpre, hall⟩
    rw [← hfin, hbv]
    rfl

/-- Coherence of the two `pickNode` views: when every box-model query
fulfils with a quadrilateral, the strategy-level loop `pickNodeE` computes
exactly the pure loop `pickLoop` over the (id, quadrilateral) pairs. -/
theorem pickNodeE_eq_pickLoop (f : Nat → Quad) :
    ∀ (bids : List Nat) (acc : Option Best),
      pickNodeE (fun b => Except.ok (some (f b))) bids acc
        = Except.ok (pickLoop (bids.map (fun b => (b, f b))) acc) := by
  intro bids
  induction bids with
  | nil => intro acc; rfl
  | cons b rest ih =>
      intro acc
      simp only [pickNodeE, List.map, pickLoop]
      split
      · exact ih acc
      · split
        · exact ih _
        · split <;> exact ih _

/-! ### Strategy-chain ordering (claim C4) -/

/-- Claim C4: within one attempt the strategies run in the fixed order
accessibility-query, full accessibility scan, in-page DOM script, per-frame
isolated query; the invoked prefix is exactly `chainOrder.take (k+1)` for
the index `k` of the first success (each strategy at most once), a later
strategy is invoked only when every earlier one returned a failure result,
the attempt's result is the first success, and when every strategy fails
the result is strategy 4's failure result.  (Stated for attempts whose
invoked strategies all return normally; an uncaught rejection aborts the
attempt instead of producing a result.) -/
theorem strategy_chain_first_success (w : World) (r1 r2 r3 r4 : Result)
    (h1 : clickByAXQuery w = Except.ok r1) (h2 : clickByAX w = Except.ok r2)
    (h3 : clickByDOM w = Except.ok r3) (h4 : clickByFrames w = Except.ok r4) :
    (runChain w).2 = chainOrder.take (firstOkIdx r1.ok r2.ok r3.ok r4.ok + 1)
  ∧ (runChain w).2.Nodup
  ∧ (Strat.ax ∈ (runChain w).2 → r1.ok = false)
  ∧ (Strat.dom ∈ (runChain w).2 → r1.ok = false ∧ r2.ok = false)
  ∧ (Strat.frames ∈ (runChain w).2 → r1.ok = false ∧ r2.ok = false ∧ r3.ok = false)
  ∧ (runChain w).1
      = Except.ok ([r1, r2, r3, r4].getD (firstOkIdx r1.ok r2.ok r3.ok r4.ok) r4)
  ∧ (r1.ok = false → r2.ok = false → r3.ok = false → r4.ok = false →
      (runChain w).1 = Except.ok r4) := by
  cases hb1 : r1.ok <;> cases hb2 : r2.ok <;> cases hb3 : r3.ok <;> cases hb4 : r4.ok <;>
    simp [runChain, h1, h2, h3, h4, hb1, hb2, hb3, hb4, firstOkIdx, chainOrder]

/-- Witness for `strategy_chain_first_success`: in the concrete all-failing
world every strategy returns a failure, the chain invokes all four
strategies, and the attempt's result is the failure result. -/
theorem strategy_chain_first_success_witness :
    (runChain wAllFail).1 = Except.ok { ok := false }
  ∧ (runChain wAllFail).2 = chainOrder := by
  have h := strategy_chain_first_success wAllFail
    { ok := false } { ok := false } { ok := false } { ok := false } rfl rfl rfl rfl
  refine ⟨h.2.2.2.2.2.2 rfl rfl rfl rfl, ?_⟩
  rw [h.1]
  rfl

/-! ### Submission policy of the injected script (claim C6) -/

/-- Counterexample for claim C6 as stated: on a page where a
semantically-labeled submit control IS found, the injected script still
dispatches an Enter keydown at the (just focused) input element — and it
does so before the submit control receives its click.  So the Enter pair is
not reserved for the no-submit-control case, and submission is not
attempted first through the submit control. -/
theorem injection_enter_despite_button :
    pageWithButton.submitFound = true
  ∧ (injectionRun "hi" pageWithButton).2.countP isEnterDownAtInput = 1
  ∧ ((injectionRun "hi" pageWithButton).2.takeWhile
      (fun e => !isClickAtSubmit e)).countP isEnterDownAtInput = 1 := by
  decide

/-- Claim C6 (corrected): whenever an input control is found, the script
always dispatches exactly one Enter keydown/keyup pair at the input element
right after text entry (lines 91-92), regardless of whether a submit
control exists; it then activates a found submit control, and only when
none is found does it dispatch a second Enter pair at the (still focused)
input element. -/
theorem injection_submit_policy (text : String) (p : InjPage) (k : InputKind)
    (h : p.input = some k) :
    (injectionRun text p).2
      = InjEvent.focus :: (entryEvents text k
          ++ [InjEvent.enterDown PageTgt.inputEl, InjEvent.enterUp PageTgt.inputEl]
          ++ submitEvents p.submitFound)
  ∧ (injectionRun text p).2.countP isEnterDownAtInput
      = (if p.submitFound then 1 else 2)
  ∧ (injectionRun text p).2.any isClickAtSubmit = p.submitFound
  ∧ (injectionRun text p).1.ok = true := by
  cases k with
  | nativeText hs =>
      cases hs <;> cases hsf : p.submitFound <;>
        simp [injectionRun, h, hsf, entryEvents, submitEvents,
          isEnterDownAtInput, isClickAtSubmit]
  | editable =>
      cases hsf : p.submitFound <;>
        simp [injectionRun, h, hsf, entryEvents, submitEvents,
          isEnterDownAtInput, isClickAtSubmit]
  | otherEl =>
      cases hsf : p.submitFound <;>
        simp [injectionRun, h, hsf, entryEvents, submitEvents,
          isEnterDownAtInput, isClickAtSubmit]

/-- Witness for `injection_submit_policy` on the concrete page with a
submit control. -/
theorem injection_submit_policy_witness :
    (injectionRun "hi" pageWithButton).2.countP isEnterDownAtInput = 1
  ∧ (injectionRun "hi" pageWithButton).2.any isClickAtSubmit = true := by
  have h := injection_submit_policy "hi" pageWithButton (InputKind.nativeText true) rfl
  exact ⟨h.2.1, h.2.2.1⟩

/-! ### The verifier is read-only and idempotent (claim C8) -/

/-- The selector-cascade loop of the verify expression leaves the page as
it found it. -/
theorem findFirstST_state (s : PageState) :
    ∀ vs : List VSel, (findFirstST vs s).2 = s := by
  intro vs
  induction vs with
  | nil => rfl
  | cons v rest ih =>
      simp only [findFirstST, querySelectorST]
      cases h : s.elems.find? (fun e => selMatches e v) with
      | none => simpa [h] using ih
      | some e => simp [h]

/-- The whole verify expression leaves the page as it found it. -/
theorem verifyRun_state (s : PageState) : (verifyRun s).2 = s := by
  unfold verifyRun
  cases h : findFirstST verifySels s with
  | mk el s1 =>
      have hs : s1 = s := by
        have h2 := findFirstST_state s verifySels
        rw [h] at h2
        exact h2
      cases el with
      | none => simpa using hs
      | some e =>
          simp only [readTagST, readEditableST, readTypeST, readValueST,
            readTextContentST, readPlaceholderST]
          split <;> simpa using hs

/-- Claim C8: the `verifyNewChat` expression is read-only — it returns the
page state unchanged — and therefore idempotent: evaluating it a second
time, against the state the first evaluation left behind, yields the same
answer. -/
theorem verify_read_only_idempotent (s : PageState) :
    (verifyRun s).2 = s
  ∧ (verifyRun ((verifyRun s).2)).1 = (verifyRun s).1 := by
  refine ⟨verifyRun_state s, ?_⟩
  rw [verifyRun_state s]

/-! ### Native path versus synthetic fallback in `clickByAX` (claim C10) -/

/-- Claim C10: once `clickByAX` has picked a node, the native
scroll-into-view-and-click path is taken exactly when a truthy object
reference is obtained, the node's `innerText || textContent` contains the
target name, and the native click call fulfils; in every other case — no
object reference, text without the name, or a rejection anywhere in the
`try` — the strategy dispatches the synthetic `mousePressed` /
`mouseReleased` pair at the picked center and still reports success
(given that those two dispatch calls themselves fulfil). -/
theorem clickByAX_native_gate (w : World) (p : Picked)
    (hp : axPicked w = Except.ok (some p))
    (hpr : w.dispatchPress p.cx p.cy = Except.ok ())
    (hre : w.dispatchRelease p.cx p.cy = Except.ok ()) :
    (axNativeTaken w p = true ↔
      ∃ os, w.resolveNode p.bid = Except.ok os ∧ jsTruthyStr os = true
        ∧ ∃ t, w.nodeText (os.getD "") = Except.ok t
        ∧ jsIncludes (t.getD "") AX_NAME = true
        ∧ w.nativeClick (os.getD "") = Except.ok ())
  ∧ clickByAX w = Except.ok (if axNativeTaken w p
      then { ok := true, x := some p.cx, y := some p.cy,
             via := some "callFunctionOn", backendNodeId := some p.bid }
      else { ok := true, x := some p.cx, y := some p.cy,
             via := some "dispatchMouseEvent", backendNodeId := some p.bid }) := by
  constructor
  · constructor
    · intro hn
      unfold axNativeTaken at hn
      split at hn
      · exact absurd hn (by simp)
      · rename_i os hrn
        split at hn
        · rename_i hts
          split at hn
          · exact absurd hn (by simp)
          · rename_i t htx
            split at hn
            · rename_i hinc
              split at hn
              · rename_i u hnc
                cases u
                exact ⟨os, hrn, hts, t, htx, hinc, hnc⟩
              · exact absurd hn (by simp)
            · exact absurd hn (by simp)
        · exact absurd hn (by simp)
    · rintro ⟨os, hrn, hts, t, htx, hinc, hnc⟩
      unfold axNativeTaken
      rw [hrn]
      simp [hts, htx, hinc, hnc]
  · unfold clickByAX
    rw [hp]
    by_cases hn : axNativeTaken w p
    · simp [hn]
    · simp only [hn, Bool.false_eq_true, if_false]
      rw [hpr, hre]

/-- Witness for `clickByAX_native_gate`: in `wAxPick` the node is picked
(backend id 5, center (5,5)) but no object reference resolves, so the
strategy takes the synthetic-mouse fallback and still reports success. -/
theorem clickByAX_native_gate_witness :
    clickByAX wAxPick
      = Except.ok { ok := true, x := some 5, y := some 5,
                    via := some "dispatchMouseEvent", backendNodeId := some 5 } := by
  have hb : axCandidateBids
      [{ role := "button", name := "开启新对话", backendId := some 5 }] = [5] := by
    decide
  have hvis : ¬ qInvisible squareQuad := by
    norm_num [qInvisible, qWidth, qHeight, qMaxX, qMinX, qMaxY, qMinY,
      jsMax, jsMin, squareQuad]
  have hcx : jsRound (qCx squareQuad) = 5 := by
    norm_num [jsRound, qCx, squareQuad]
  have hcy : jsRound (qCy squareQuad) = 5 := by
    norm_num [jsRound, qCy, squareQuad]
  have hp : axPicked wAxPick = Except.ok (some { bid := 5, cx := 5, cy := 5 }) := by
    simp [axPicked, wAxPick, wAllFail, hb, pickNodeCall, pickNodeE, if_neg hvis,
      mkBest, finishBest, hcx, hcy]
  have h := clickByAX_native_gate wAxPick { bid := 5, cx := 5, cy := 5 } hp rfl rfl
  have hn : axNativeTaken wAxPick { bid := 5, cx := 5, cy := 5 } = false := rfl
  rw [h.2, hn]
  rfl

/-! ### Failure results carry no coordinates (claim C9) -/

/-- Failure results of `clickByAXQuery`'s try body are the literal
`{ ok:false }`. -/
theorem clickByAXQueryBody_fail (w : World) (r : Result)
    (h : clickByAXQueryBody w = Except.ok r) (hok : r.ok = false) :
    r.x = none ∧ r.y = none := by
  unfold clickByAXQueryBody at h
  repeat' split at h
  all_goals simp at h
  all_goals try subst h
  all_goals simp_all

/-- Failure results of strategy 1 carry no `x`/`y`. -/
theorem clickByAXQuery_fail (w : World) (r : Result)
    (h : clickByAXQuery w = Except.ok r) (hok : r.ok = false) :
    r.x = none ∧ r.y = none := by
  unfold clickByAXQuery at h
  split at h
  · simp at h
  · split at h
    · simp at h
      subst h
      exact ⟨rfl, rfl⟩
    · split at h
      · rename_i heq
        simp at h
        exact clickByAXQueryBody_fail w r (h ▸ heq) hok
      · simp at h
        subst h
        exact ⟨rfl, rfl⟩

/-- Failure results of strategy 2 carry no `x`/`y`. -/
theorem clickByAX_fail (w : World) (r : Result)
    (h : clickByAX w = Except.ok r) (hok : r.ok = false) :
    r.x = none ∧ r.y = none := by
  unfold clickByAX at h
  repeat' split at h
  all_goals simp at h
  all_goals try subst h
  all_goals simp_all

/-- Failure results of strategy 3 carry no `x`/`y`. -/
theorem clickByDOM_fail (w : World) (r : Result)
    (h : clickByDOM w = Except.ok r) (hok : r.ok = false) :
    r.x = none ∧ r.y = none := by
  unfold clickByDOM at h
  repeat' split at h
  all_goals simp at h
  all_goals try subst h
  all_goals simp_all

/-- A failing frames loop produced the literal `{ ok:false }`. -/
theorem framesLoop_fail (w : World) :
    ∀ fs, (framesLoop w fs).ok = false →
      (framesLoop w fs).x = none ∧ (framesLoop w fs).y = none := by
  intro fs
  induction fs with
  | nil => intro h; simp [framesLoop]
  | cons fid rest ih =>
      intro h
      simp only [framesLoop] at h ⊢
      split
      · exact ih (by simp_all)
      · split
        · exact ih (by simp_all)
        · exact ih (by simp_all)
        · split
          · simp_all
          · exact ih (by simp_all)

/-- Failure results of strategy 4 carry no `x`/`y`. -/
theorem clickByFrames_fail (w : World) (r : Result)
    (h : clickByFrames w = Except.ok r) (hok : r.ok = false) :
    r.x = none ∧ r.y = none := by
  unfold clickByFrames at h
  split at h
  · simp at h
  · rename_i frames heq
    simp at h
    subst h
    exact framesLoop_fail w frames hok

/-- A normally returned failing chain result carries no `x`/`y`. -/
theorem runChain_fail (w : World) (r : Result)
    (h : (runChain w).1 = Except.ok r) (hok : r.ok = false) :
    r.x = none ∧ r.y = none := by
  unfold runChain at h
  cases hq1 : clickByAXQuery w with
  | error e => rw [hq1] at h; simp at h
  | ok r1 =>
      rw [hq1] at h
      by_cases hb1 : r1.ok
      · simp only [hb1, if_true] at h
        simp at h
        exact absurd (h ▸ hok) (by simp [hb1])
      · simp only [hb1, if_false] at h
        cases hq2 : clickByAX w with
        | error e => rw [hq2] at h; simp at h
        | ok r2 =>
            rw [hq2] at h
            by_cases hb2 : r2.ok
            · simp only [hb2, if_true] at h
              simp at h
              exact absurd (h ▸ hok) (by simp [hb2])
            · simp only [hb2, if_false] at h
              cases hq3 : clickByDOM w with
              | error e => rw [hq3] at h; simp at h
              | ok r3 =>
                  rw [hq3] at h
                  by_cases hb3 : r3.ok
                  · simp only [hb3, if_true] at h
                    simp at h
                    exact absurd (h ▸ hok) (by simp [hb3])
                  · simp only [hb3, if_false] at h
                    cases hq4 : clickByFrames w with
                    | error e => rw [hq4] at h; simp at h
                    | ok r4 =>
                        rw [hq4] at h
                        simp at h
                        exact clickByFrames_fail w r (h ▸ hq4) hok

/-- A normally returned failing loop result carries no `x`/`y`, provided the
initial `r` does (which the literal `{ ok:false }` initializer satisfies). -/
theorem mainLoop_fail (ws : Nat → World) (clock : Nat → Nat) (maxT : Nat) :
    ∀ fuel a r, (r.ok = false → r.x = none ∧ r.y = none) →
      ∀ r', (mainLoop ws clock maxT fuel a r).1 = Except.ok r' →
        r'.ok = false → r'.x = none ∧ r'.y = none := by
  intro fuel
  induction fuel with
  | zero =>
      intro a r hr r' h hok
      simp only [mainLoop] at h
      simp at h
      exact h ▸ hr (h ▸ hok)
  | succ n ih =>
      intro a r hr r' h hok
      simp only [mainLoop] at h
      by_cases hb : r.ok
      · simp only [hb, if_true] at h
        simp at h
        exact absurd (h ▸ hok) (by simp [hb])
      · simp only [hb, if_false] at h
        cases hc : (runChain (ws a)).1 with
        | error e => rw [hc] at h; simp at h
        | ok rc =>
            rw [hc] at h
            by_cases hd : maxT < clock a
            · simp only [hd, if_true] at h
              simp at h
              exact runChain_fail (ws a) r' (h ▸ hc) hok
            · simp only [hd, if_false] at h
              exact ih (a + 1) rc (fun hf => runChain_fail (ws a) rc hc hf) r' h hok

/-- Claim C9: every failure result of the four strategies and of the chain
pipeline carries no coordinates, so whenever control reaches the guard
`!r.ok && r.x !== undefined && r.y !== undefined` at line 365, the guard is
false — the fallback branch is unreachable. -/
theorem fallback_branch_unreachable :
    (∀ w r, clickByAXQuery w = Except.ok r → r.ok = false → r.x = none ∧ r.y = none)
  ∧ (∀ w r, clickByAX w = Except.ok r → r.ok = false → r.x = none ∧ r.y = none)
  ∧ (∀ w r, clickByDOM w = Except.ok r → r.ok = false → r.x = none ∧ r.y = none)
  ∧ (∀ w r, clickByFrames w = Except.ok r → r.ok = false → r.x = none ∧ r.y = none)
  ∧ (∀ ws clock maxT vw r, resultAt365 ws clock maxT vw = Except.ok r →
      fallbackGuard r = false) := by
  refine ⟨clickByAXQuery_fail, clickByAX_fail, clickByDOM_fail, clickByFrames_fail, ?_⟩
  intro ws clock maxT vw r h
  unfold resultAt365 at h
  cases hm : (runMain ws clock maxT).1 with
  | error e => rw [hm] at h; simp at h
  | ok r0 =>
      rw [hm] at h
      by_cases hb : r0.ok
      · simp only [hb, if_true] at h
        simp at h
        subst h
        simp [fallbackGuard, hb]
      · simp only [hb, if_false] at h
        cases hv : verifyNewChatE vw with
        | error e => rw [hv] at h; simp at h
        | ok v =>
            rw [hv] at h
            by_cases hvo : v.ok
            · simp only [hvo, if_true] at h
              simp at h
              subst h
              simp [fallbackGuard]
            · simp only [hvo, if_false] at h
              simp at h
              subst h
              have hxy := mainLoop_fail ws clock maxT 5 0 { ok := false }
                (by intro _; exact ⟨rfl, rfl⟩) r0 hm (by simpa using hb)
              simp [fallbackGuard, hb, hxy.1]

end ChromeRpa
